import Mathlib

/-
Shallow embedding of the core of `progman.py` (a Program Manager-style
launcher): the persisted catalog model (`ProgramItem`, `ProgramGroup`,
`AppModel` with `load`/`save`/`_load_default`), the process launcher
(`Launcher.launch`), and the GUI-level catalog mutations
(`ProgramItemDialog.get_item`, `GroupWindow._new_program`,
`GroupWindow._delete_program`, the `MainWindow` group/theme/layout
operations).

Python values produced by `json.load` are modelled by the inductive `Json`;
Python dicts are association lists with distinct keys, and `dict.get` is
`dictGet`.  The filesystem is a map from paths to optional file contents,
where a content either fails `json.load` (`FileContent.garbage`) or parses
to a `Json` value (`FileContent.json j`); `json.dump` of a value followed by
`json.load` recovers that value.  Python exceptions escaping a function are
modelled with `Except PyExc`.  Python object identity (the `is` operator on
heap objects) is modelled by tagging list entries with distinct natural
number ids.
-/

namespace Progman

/-- A JSON value, as returned by Python's `json.load`:
`None`, `bool`, numbers, strings, lists, and string-keyed dicts. -/
inductive Json where
  | null : Json
  | bool (b : Bool) : Json
  | num (n : Int) : Json
  | str (s : String) : Json
  | arr (xs : List Json) : Json
  | obj (kvs : List (String × Json)) : Json
deriving Repr

/-- Python dict `d.get(k, default)` on a string-keyed dict
(association list with distinct keys). -/
def dictGet (d : List (String × Json)) (k : String) (default : Json) : Json :=
  match d.lookup k with
  | some v => v
  | none => default

/-- Python truthiness of a JSON value (`if not x`):
`None`, `False`, `0`, `""`, `[]` and `{}` are falsy. -/
def truthy : Json → Bool
  | .null => false
  | .bool b => b
  | .num n => decide (n ≠ 0)
  | .str s => decide (s ≠ "")
  | .arr xs => !xs.isEmpty
  | .obj kvs => !kvs.isEmpty

/-- A Python exception escaping a modelled function. -/
inductive PyExc where
  | attributeError : PyExc
  | typeError : PyExc
deriving Repr, DecidableEq

/-- Python iteration over a JSON value (`for x in v`): lists yield their
elements, strings yield their one-character substrings, dicts yield their
keys, and other values raise `TypeError`. -/
def iterJson : Json → Except PyExc (List Json)
  | .arr xs => .ok xs
  | .str s => .ok (s.data.map (fun c => .str (String.mk [c])))
  | .obj kvs => .ok (kvs.map (fun kv => .str kv.1))
  | _ => .error .typeError

/-- `ProgramItem` dataclass: `title`, `command`, `working_dir`, `icon_path`.
The dataclass annotations say `str`, but Python does not enforce them and
`from_dict` stores whatever JSON value is present, so the fields are
modelled as `Json` (all code paths that construct items use strings). -/
structure ProgramItem where
  title : Json
  command : Json
  working_dir : Json := .str ""
  icon_path : Json := .str ""
deriving Repr

/-- `ProgramItem.from_dict`: `data.get(key, "")` for each field; calling
`.get` on a non-dict raises `AttributeError`. -/
def ProgramItem.from_dict : Json → Except PyExc ProgramItem
  | .obj d =>
      .ok { title := dictGet d "title" (.str "")
            command := dictGet d "command" (.str "")
            working_dir := dictGet d "working_dir" (.str "")
            icon_path := dictGet d "icon_path" (.str "") }
  | _ => .error .attributeError

/-- `ProgramItem.to_dict` (via `dataclasses.asdict`). -/
def ProgramItem.to_dict (i : ProgramItem) : Json :=
  .obj [("title", i.title), ("command", i.command),
        ("working_dir", i.working_dir), ("icon_path", i.icon_path)]

/-- `ProgramGroup` dataclass: `title` and an ordered list of items. -/
structure ProgramGroup where
  title : Json
  items : List ProgramItem := []
deriving Repr

/-- The list comprehension `[ProgramItem.from_dict(i) for i in items_data]`
once `items_data` has been turned into a list of values: left to right, the
first exception propagates. -/
def itemsFromDicts : List Json → Except PyExc (List ProgramItem)
  | [] => .ok []
  | x :: xs =>
      match ProgramItem.from_dict x with
      | .error e => .error e
      | .ok i =>
          match itemsFromDicts xs with
          | .error e => .error e
          | .ok rest => .ok (i :: rest)

/-- `ProgramGroup.from_dict`: `items_data = data.get("items", [])`, then the
comprehension over `items_data`, then `cls(title=data.get("title",""), items=items)`. -/
def ProgramGroup.from_dict : Json → Except PyExc ProgramGroup
  | .obj d =>
      match iterJson (dictGet d "items" (.arr [])) with
      | .error e => .error e
      | .ok xs =>
          match itemsFromDicts xs with
          | .error e => .error e
          | .ok items => .ok { title := dictGet d "title" (.str ""), items := items }
  | _ => .error .attributeError

/-- `ProgramGroup.to_dict`. -/
def ProgramGroup.to_dict (g : ProgramGroup) : Json :=
  .obj [("title", g.title), ("items", .arr (g.items.map ProgramItem.to_dict))]

/-- A config-file path. -/
abbrev ConfigPath := String

/-- The content of a file on disk, as seen through `json.load`:
either text that fails to parse, or text parsing to a JSON value. -/
inductive FileContent where
  | garbage : FileContent
  | json (j : Json) : FileContent
deriving Repr

/-- The filesystem: a map from paths to optional file contents
(`none` means the path does not exist). -/
abbrev FS := ConfigPath → Option FileContent

/-- `AppModel`: `config_path`, `theme` (always one of the literal strings
`"system"`/`"classic"` after `__init__`, `load` or `_set_theme`),
`layout_state` (any JSON value that was read; the GUI writes strings),
and the ordered group list. -/
structure AppModel where
  config_path : ConfigPath
  theme : String := "system"
  layout_state : Json := .str ""
  groups : List ProgramGroup := []
deriving Repr

/-- The field state `AppModel.__init__` establishes just before it calls
`self.load()`: `theme = "system"`, `layout_state = ""`, `groups = []`. -/
def AppModel.initState (p : ConfigPath) : AppModel :=
  { config_path := p, theme := "system", layout_state := .str "", groups := [] }

/-- The dict `AppModel.save` serializes: keys `theme`, `layout_state`,
`groups` in that order. -/
def AppModel.to_json (m : AppModel) : Json :=
  .obj [("theme", .str m.theme), ("layout_state", m.layout_state),
        ("groups", .arr (m.groups.map ProgramGroup.to_dict))]

/-- `AppModel.save`: write the serialized model to `config_path`
(parent-directory creation is a filesystem no-op in the model). -/
def AppModel.save (m : AppModel) (fs : FS) : FS :=
  fun p => if p = m.config_path then some (.json m.to_json) else fs p

/-- The platform-sensitive default item of `AppModel._load_default`:
Notepad on Windows (`sys.platform.startswith("win")`), xterm otherwise. -/
def default_item (win : Bool) : ProgramItem :=
  if win then
    { title := .str "Notepad", command := .str "notepad.exe",
      working_dir := .str "", icon_path := .str "" }
  else
    { title := .str "Terminal", command := .str "xterm",
      working_dir := .str "", icon_path := .str "" }

/-- `AppModel._load_default`: replace `groups` with a single group titled
`"Main"` holding the platform default item; `theme` and `layout_state`
are not touched. -/
def AppModel.load_default (win : Bool) (m : AppModel) : AppModel :=
  { m with groups := [{ title := .str "Main", items := [default_item win] }] }

/-- The group list comprehension in `AppModel.load`. -/
def groupsFromDicts : List Json → Except PyExc (List ProgramGroup)
  | [] => .ok []
  | x :: xs =>
      match ProgramGroup.from_dict x with
      | .error e => .error e
      | .ok g =>
          match groupsFromDicts xs with
          | .error e => .error e
          | .ok rest => .ok (g :: rest)

/-- `AppModel.load`: on a nonexistent path, `_load_default` then `save`;
if `json.load` raises (unparseable content), `_load_default` without
saving; otherwise map the parsed data onto the model — the `try` block
covers only `json.load`, so exceptions raised by `data.get` on a non-dict
or by iterating a non-list `groups` value propagate to the caller.
`win` models `sys.platform.startswith("win")`. -/
def AppModel.load (win : Bool) (m : AppModel) (fs : FS) :
    Except PyExc (AppModel × FS) :=
  match fs m.config_path with
  | none =>
      let m' := m.load_default win
      .ok (m', m'.save fs)
  | some .garbage => .ok (m.load_default win, fs)
  | some (.json data) =>
      match data with
      | .obj d =>
          let t := dictGet d "theme" (.str "system")
          let theme : String :=
            match t with
            | .str s => if s = "system" ∨ s = "classic" then s else "system"
            | _ => "system"
          let layout_state := dictGet d "layout_state" (.str "")
          match iterJson (dictGet d "groups" (.arr [])) with
          | .error e => .error e
          | .ok xs =>
              match groupsFromDicts xs with
              | .error e => .error e
              | .ok groups =>
                  .ok ({ m with theme := theme, layout_state := layout_state,
                                groups := groups }, fs)
      | _ => .error .attributeError

/-- An invocation of `subprocess.Popen(item.command, shell=True, cwd=cwd)`:
the arguments passed to process creation. -/
structure PopenCall where
  args : Json
  shell : Bool
  cwd : Option Json
deriving Repr

/-- The observable outcome of `Launcher.launch`, labelling the branch the
code takes: the early `return` on a falsy command (`skipped`), a successful
`Popen` (`started`), or the `except` branch, which shows a
`QMessageBox.critical` carrying the item's title, its command and the
original error text and returns normally (`failed`). -/
inductive LaunchResult where
  | skipped : LaunchResult
  | started : LaunchResult
  | failed (title command : Json) (errorMessage : String) : LaunchResult
deriving Repr

/-- `Launcher.launch`.  `popen` models `subprocess.Popen`: it receives the
command, the `shell=True` flag and the `cwd` argument, and either succeeds
or raises with an error message.  The second component of the result lists
the `Popen` invocations made (empty exactly when no process creation was
attempted).  The Python local `cwd = item.working_dir or None` is inlined
at its use sites.  The function is total: the `try/except` catches every
exception from `Popen`, so a launch never raises to the caller. -/
def Launcher.launch (popen : Json → Bool → Option Json → Except String Unit)
    (item : ProgramItem) : LaunchResult × List PopenCall :=
  if truthy item.command = false then (.skipped, [])
  else
    match popen item.command true
        (if truthy item.working_dir then some item.working_dir else none) with
    | .ok _ =>
        (.started,
         [{ args := item.command, shell := true,
            cwd := if truthy item.working_dir then some item.working_dir
                   else none }])
    | .error e =>
        (.failed item.title item.command e,
         [{ args := item.command, shell := true,
            cwd := if truthy item.working_dir then some item.working_dir
                   else none }])

/-- Python `str.strip()`: drop leading and trailing whitespace. -/
def pyStrip (s : String) : String :=
  String.mk
    (((s.data.dropWhile Char.isWhitespace).reverse.dropWhile
        Char.isWhitespace).reverse)

/-- The inputs `ProgramItemDialog.get_item` draws from the dialog:
whether `exec()` returned `Accepted`, and the raw text of the four
line edits. -/
structure DialogInputs where
  accepted : Bool
  titleText : String
  commandText : String
  workingText : String
  iconText : String

/-- The outcome of `ProgramItemDialog.get_item`, labelling its branches:
`cancelled` (`exec() != Accepted`, returns `None`), `invalidItem` (empty
stripped title or command: shows the "Invalid Item" warning and returns
`None`), or `ok` with the constructed or updated item. -/
inductive DialogResult where
  | cancelled : DialogResult
  | invalidItem : DialogResult
  | ok (item : ProgramItem) : DialogResult
deriving Repr

/-- `ProgramItemDialog.get_item`: strip the four texts; if title or command
is empty, warn and fail; otherwise build a fresh item (`existing = none`)
or overwrite the fields of the edited item in place. -/
def ProgramItemDialog.get_item (existing : Option ProgramItem)
    (inp : DialogInputs) : DialogResult :=
  if inp.accepted = false then .cancelled
  else
    let title := pyStrip inp.titleText
    let command := pyStrip inp.commandText
    let working := pyStrip inp.workingText
    let icon := pyStrip inp.iconText
    if title = "" ∨ command = "" then .invalidItem
    else
      match existing with
      | none =>
          .ok { title := .str title, command := .str command,
                working_dir := .str working, icon_path := .str icon }
      | some it =>
          .ok { it with title := .str title, command := .str command,
                        working_dir := .str working, icon_path := .str icon }

/-- `GroupWindow._new_program`: if the dialog produced an item, append it to
the group's item list; otherwise leave the group untouched. -/
def GroupWindow.new_program (g : ProgramGroup) (r : DialogResult) :
    ProgramGroup :=
  match r with
  | .ok it => { g with items := g.items ++ [it] }
  | _ => g

/-- `GroupWindow._delete_program`:
`self.group.items = [i for i in self.group.items if i is not item]`.
Python heap objects compared with `is` are modelled by tagging each list
entry with its object id (distinct allocations get distinct ids);
`confirmed` models the `QMessageBox.question` reply being `Yes`. -/
def GroupWindow.delete_program (items : List (Nat × ProgramItem))
    (confirmed : Bool) (target : Nat) : List (Nat × ProgramItem) :=
  if confirmed then items.filter (fun p => decide (p.1 ≠ target)) else items

/-- Replace the `i`-th element of a list by `f` applied to it (in-place
mutation of the object a Python list slot refers to). -/
def listModify {α : Type} (f : α → α) : Nat → List α → List α
  | _, [] => []
  | 0, x :: xs => f x :: xs
  | n + 1, x :: xs => x :: listModify f n xs

/-- `MainWindow._set_theme`: `(theme or "system").lower()`, coerce anything
outside `{"system", "classic"}` to `"system"`, store on the model (the
subsequent `ThemeManager.apply`, checkmark updates and `_save` do not
change the model fields other than via `_capture_layout`, modelled
separately). -/
def MainWindow.set_theme (m : AppModel) (t : String) : AppModel :=
  let t1 := (if t = "" then "system" else t).toLower
  let t2 := if t1 = "system" ∨ t1 = "classic" then t1 else "system"
  { m with theme := t2 }

/-- `MainWindow._new_group`: on a confirmed, non-blank name, append a new
empty group titled with the stripped text. -/
def MainWindow.new_group (m : AppModel) (ok : Bool) (text : String) :
    AppModel :=
  if ok = false ∨ pyStrip text = "" then m
  else { m with groups :=
          m.groups ++ [{ title := .str (pyStrip text), items := [] }] }

/-- `MainWindow._rename_current_group`: on a confirmed, non-blank name,
retitle the active group (here: the group at index `i`). -/
def MainWindow.rename_group (m : AppModel) (i : Nat) (ok : Bool)
    (text : String) : AppModel :=
  if ok = false ∨ pyStrip text = "" then m
  else { m with groups :=
          (listModify (fun g => { g with title := .str (pyStrip text) }) i m.groups) }

/-- `MainWindow._delete_current_group`: on a `Yes` reply, remove the active
group (here: the group at index `i`) from the model
(`self.model.groups = [g for g in self.model.groups if g is not group]`). -/
def MainWindow.delete_current_group (m : AppModel) (confirmed : Bool)
    (i : Nat) : AppModel :=
  if confirmed then { m with groups := m.groups.eraseIdx i } else m

/-- `MainWindow._capture_layout`: store the base64 text of the MDI state
(or `""` when the state is empty) in `layout_state`. -/
def MainWindow.capture_layout (m : AppModel) (state : String) : AppModel :=
  { m with layout_state := .str state }

/-- `GroupWindow._edit_program` on the item at index `i` of a group:
`get_item` seeded with that item either leaves it untouched (cancel or
validation failure) or overwrites its fields in place. -/
def GroupWindow.edit_program (g : ProgramGroup) (i : Nat)
    (inp : DialogInputs) : ProgramGroup :=
  match g.items.get? i with
  | none => g
  | some it =>
      match ProgramItemDialog.get_item (some it) inp with
      | .ok it' => { g with items := listModify (fun _ => it') i g.items }
      | _ => g

/-- `GroupWindow._delete_program` seen at the model level: deleting the item
the clicked icon refers to excises exactly that list position. -/
def GroupWindow.delete_program_at (g : ProgramGroup) (confirmed : Bool)
    (i : Nat) : ProgramGroup :=
  if confirmed then { g with items := g.items.eraseIdx i } else g

/-- Apply an item-level operation to the group at index `i` of the model
(the `GroupWindow` holds a reference to the group object, so mutating it
mutates the model's list entry in place). -/
def AppModel.with_group (m : AppModel) (i : Nat)
    (f : ProgramGroup → ProgramGroup) : AppModel :=
  { m with groups := listModify f i m.groups }

/-- The catalogs producible by the program's valid operations: a model
obtained by a successful `AppModel.load` from the freshly initialized state
(as `AppModel.__init__` does), followed by any sequence of the
GUI-triggered mutations. -/
inductive ValidOps : AppModel → Prop where
  | loaded {win : Bool} {p : ConfigPath} {fs fs' : FS} {m : AppModel} :
      AppModel.load win (AppModel.initState p) fs = .ok (m, fs') → ValidOps m
  | set_theme {m : AppModel} (t : String) :
      ValidOps m → ValidOps (MainWindow.set_theme m t)
  | new_group {m : AppModel} (ok : Bool) (text : String) :
      ValidOps m → ValidOps (MainWindow.new_group m ok text)
  | rename_group {m : AppModel} (i : Nat) (ok : Bool) (text : String) :
      ValidOps m → ValidOps (MainWindow.rename_group m i ok text)
  | delete_group {m : AppModel} (c : Bool) (i : Nat) :
      ValidOps m → ValidOps (MainWindow.delete_current_group m c i)
  | capture_layout {m : AppModel} (s : String) :
      ValidOps m → ValidOps (MainWindow.capture_layout m s)
  | new_program {m : AppModel} (i : Nat) (r : DialogResult) :
      ValidOps m → ValidOps (m.with_group i (fun g => GroupWindow.new_program g r))
  | edit_program {m : AppModel} (i j : Nat) (inp : DialogInputs) :
      ValidOps m → ValidOps (m.with_group i (fun g => GroupWindow.edit_program g j inp))
  | delete_program {m : AppModel} (i : Nat) (c : Bool) (j : Nat) :
      ValidOps m → ValidOps (m.with_group i (fun g => GroupWindow.delete_program_at g c j))

/-- Serializing an item and reading it back recovers the item exactly. -/
theorem item_roundtrip (i : ProgramItem) :
    ProgramItem.from_dict i.to_dict = .ok i := by
  cases i
  rfl

/-- Reading back a serialized item list recovers the list exactly. -/
theorem itemsFromDicts_map (xs : List ProgramItem) :
    itemsFromDicts (xs.map ProgramItem.to_dict) = .ok xs := by
  induction xs with
  | nil => rfl
  | cons x xs ih =>
      simp [itemsFromDicts, item_roundtrip, ih]

/-- Serializing a group and reading it back recovers the group exactly. -/
theorem group_roundtrip (g : ProgramGroup) :
    ProgramGroup.from_dict g.to_dict = .ok g := by
  cases g with
  | mk t its =>
      simp [ProgramGroup.from_dict, ProgramGroup.to_dict, dictGet,
            List.lookup, iterJson, itemsFromDicts_map]

/-- Reading back a serialized group list recovers the list exactly. -/
theorem groupsFromDicts_map (gs : List ProgramGroup) :
    groupsFromDicts (gs.map ProgramGroup.to_dict) = .ok gs := by
  induction gs with
  | nil => rfl
  | cons g gs ih =>
      simp [groupsFromDicts, group_roundtrip, ih]

/-- Core save/load round trip: loading (into any model at the same path)
a filesystem just written by `save` succeeds, does not change the
filesystem further, and reproduces `theme` (when it is one of the two
legal theme strings), `layout_state` and `groups` exactly. -/
theorem load_after_save (win : Bool) (m m0 : AppModel) (fs : FS)
    (hp : m0.config_path = m.config_path)
    (ht : m.theme = "system" ∨ m.theme = "classic") :
    AppModel.load win m0 (m.save fs) =
      .ok ({ m0 with theme := m.theme, layout_state := m.layout_state,
                     groups := m.groups }, m.save fs) := by
  have hfs : m.save fs m0.config_path = some (.json m.to_json) := by
    simp [AppModel.save, hp]
  simp only [AppModel.load, hfs, AppModel.to_json, dictGet, List.lookup]
  simp only [iterJson, groupsFromDicts_map]
  rcases ht with h | h <;> simp [h, groupsFromDicts_map]

/-- A successful `load` either keeps the model's previous theme (default
branches) or sets one of the two legal theme strings. -/
theorem load_theme_mem (win : Bool) (m m' : AppModel) (fs fs' : FS)
    (h : AppModel.load win m fs = .ok (m', fs')) :
    m'.theme = m.theme ∨ m'.theme = "system" ∨ m'.theme = "classic" := by
  unfold AppModel.load at h
  split at h
  · simp only [Except.ok.injEq, Prod.mk.injEq] at h
    obtain ⟨hm, -⟩ := h
    left; rw [← hm]; rfl
  · simp only [Except.ok.injEq, Prod.mk.injEq] at h
    obtain ⟨hm, -⟩ := h
    left; rw [← hm]; rfl
  · split at h
    · split at h
      · exact Except.noConfusion h
      · split at h
        · exact Except.noConfusion h
        · simp only [Except.ok.injEq, Prod.mk.injEq] at h
          obtain ⟨hm, -⟩ := h
          right
          rw [← hm]
          show (match _ with
                | Json.str s => if s = "system" ∨ s = "classic" then s else "system"
                | _ => "system") = "system" ∨ _ = "classic"
          split
          · split
            · next hs => exact hs
            · left; rfl
          · left; rfl
    · exact Except.noConfusion h

/-- Every catalog reachable by valid operations has a legal theme string. -/
theorem validOps_theme {m : AppModel} (h : ValidOps m) :
    m.theme = "system" ∨ m.theme = "classic" := by
  induction h with
  | loaded hl =>
      rcases load_theme_mem _ _ _ _ _ hl with h1 | h1
      · rw [h1]; left; rfl
      · exact h1
  | set_theme t _ ih =>
      have hcoerce : ∀ u : String,
          (if u = "system" ∨ u = "classic" then u else "system") = "system" ∨
          (if u = "system" ∨ u = "classic" then u else "system") = "classic" := by
        intro u
        split
        · next h1 => exact h1
        · left; rfl
      exact hcoerce ((if t = "" then "system" else t).toLower)
  | new_group ok text _ ih =>
      unfold MainWindow.new_group
      split
      · exact ih
      · simpa using ih
  | rename_group i ok text _ ih =>
      unfold MainWindow.rename_group
      split
      · exact ih
      · simpa using ih
  | delete_group c i _ ih =>
      unfold MainWindow.delete_current_group
      split
      · simpa using ih
      · exact ih
  | capture_layout s _ ih => simpa [MainWindow.capture_layout] using ih
  | new_program i r _ ih => simpa [AppModel.with_group] using ih
  | edit_program i j inp _ ih => simpa [AppModel.with_group] using ih
  | delete_program i c j _ ih => simpa [AppModel.with_group] using ih

/-- The empty filesystem: no path exists. -/
def emptyFS : FS := fun _ => none

/-- The default catalog `load` synthesizes on a POSIX platform at path
`"cfg"` (one group `"Main"` holding the xterm item). -/
def posixDefaultModel : AppModel :=
  { config_path := "cfg", theme := "system", layout_state := .str "",
    groups := [{ title := .str "Main", items := [default_item false] }] }

/-- A filesystem whose only file, at `"cfg"`, holds text that `json.load`
cannot parse. -/
def garbageFS : FS := fun p => if p = "cfg" then some .garbage else none

/-- A filesystem whose only file, at `"cfg"`, holds syntactically valid
JSON whose top level is a list rather than an object (wrong shape). -/
def wrongShapeFS : FS := fun p => if p = "cfg" then some (.json (.arr [])) else none

/-- A filesystem whose only file, at `"cfg"`, holds the empty JSON object. -/
def emptyObjFS : FS := fun p => if p = "cfg" then some (.json (.obj [])) else none

/-- C1: For every catalog produced by valid operations, calling `save` and
then `load` on the same path yields a catalog whose `groups`, `theme` and
`layout_state` are equal field-for-field to the original; the equalities
are on ordered lists, so group order and item-within-group order are
preserved. -/
theorem save_load_roundtrip (win : Bool) (m m0 : AppModel) (fs : FS)
    (hv : ValidOps m) (hp : m0.config_path = m.config_path) :
    ∃ m1 : AppModel,
      AppModel.load win m0 (m.save fs) = .ok (m1, m.save fs) ∧
      m1.groups = m.groups ∧ m1.theme = m.theme ∧
      m1.layout_state = m.layout_state :=
  ⟨{ m0 with theme := m.theme, layout_state := m.layout_state,
             groups := m.groups },
   load_after_save win m m0 fs hp (validOps_theme hv), rfl, rfl, rfl⟩

/-- Witness for C1: the default POSIX catalog (obtained by a valid `load`)
saved to and reloaded from `"cfg"` over the empty filesystem. -/
theorem save_load_roundtrip_witness :
    ∃ m1 : AppModel,
      AppModel.load false (AppModel.initState "cfg")
          (posixDefaultModel.save emptyFS) =
        .ok (m1, posixDefaultModel.save emptyFS) ∧
      m1.groups = posixDefaultModel.groups ∧
      m1.theme = posixDefaultModel.theme ∧
      m1.layout_state = posixDefaultModel.layout_state :=
  save_load_roundtrip false posixDefaultModel (AppModel.initState "cfg")
    emptyFS
    (@ValidOps.loaded false "cfg" emptyFS (posixDefaultModel.save emptyFS)
      posixDefaultModel rfl)
    rfl

/-- C2: `load` on a nonexistent path returns a catalog with exactly one
group titled `"Main"` holding exactly one item whose command is
platform-appropriate and whose working directory and icon are empty,
immediately writes that catalog to the path, and a second `load` on the
written filesystem returns the same catalog (and writes nothing more). -/
theorem load_nonexistent_default (win : Bool) (p : ConfigPath) (fs : FS)
    (h : fs p = none) :
    ∃ m1 : AppModel, ∃ fs2 : FS,
      AppModel.load win (AppModel.initState p) fs = .ok (m1, fs2) ∧
      m1.groups = [{ title := .str "Main", items := [default_item win] }] ∧
      (default_item win).command =
        (if win then Json.str "notepad.exe" else Json.str "xterm") ∧
      (default_item win).working_dir = .str "" ∧
      (default_item win).icon_path = .str "" ∧
      fs2 p = some (.json m1.to_json) ∧
      AppModel.load win (AppModel.initState p) fs2 = .ok (m1, fs2) := by
  have h' : fs (AppModel.initState p).config_path = none := h
  refine ⟨(AppModel.initState p).load_default win,
          ((AppModel.initState p).load_default win).save fs,
          ?_, rfl, ?_, ?_, ?_, ?_, ?_⟩
  · unfold AppModel.load
    rw [h']
  · cases win <;> rfl
  · cases win <;> rfl
  · cases win <;> rfl
  · simp [AppModel.save, AppModel.load_default, AppModel.initState]
  · exact load_after_save win ((AppModel.initState p).load_default win)
      (AppModel.initState p) fs rfl (Or.inl rfl)

/-- Witness for C2: the nonexistent path `"cfg"` over the empty filesystem
on a Windows platform. -/
theorem load_nonexistent_default_witness :
    ∃ m1 : AppModel, ∃ fs2 : FS,
      AppModel.load true (AppModel.initState "cfg") emptyFS = .ok (m1, fs2) ∧
      m1.groups = [{ title := .str "Main", items := [default_item true] }] ∧
      (default_item true).command =
        (if true then Json.str "notepad.exe" else Json.str "xterm") ∧
      (default_item true).working_dir = .str "" ∧
      (default_item true).icon_path = .str "" ∧
      fs2 "cfg" = some (.json m1.to_json) ∧
      AppModel.load true (AppModel.initState "cfg") fs2 = .ok (m1, fs2) :=
  load_nonexistent_default true "cfg" emptyFS rfl

/-- C3 counterexample: a file that exists and holds syntactically valid
structured data of the wrong shape (a top-level JSON list).  The `try` in
`AppModel.load` covers only `json.load`, so `data.get` raises
`AttributeError`, which propagates: `load` does not return the default
catalog (it returns no catalog at all). -/
theorem load_wrong_shape_raises :
    AppModel.load false (AppModel.initState "cfg") wrongShapeFS =
      .error .attributeError ∧
    AppModel.load false (AppModel.initState "cfg") wrongShapeFS ≠
      .ok ((AppModel.initState "cfg").load_default false, wrongShapeFS) := by
  refine ⟨rfl, ?_⟩
  intro hcontra
  rw [show AppModel.load false (AppModel.initState "cfg") wrongShapeFS =
        .error .attributeError from rfl] at hcontra
  exact Except.noConfusion hcontra

/-- C3 amended: for every path whose file exists but whose content fails
the structured-data parse (`json.load` raises), `load` returns the same
default catalog as the nonexistent-path case and leaves the filesystem —
in particular the file's on-disk content — unchanged.  (Existing files
holding parseable JSON of the wrong shape instead raise, see the
counterexample.) -/
theorem load_garbage_fallback (win : Bool) (p : ConfigPath) (fs : FS)
    (h : fs p = some .garbage) :
    AppModel.load win (AppModel.initState p) fs =
      .ok ((AppModel.initState p).load_default win, fs) ∧
    ((AppModel.initState p).load_default win).groups =
      [{ title := .str "Main", items := [default_item win] }] := by
  have h' : fs (AppModel.initState p).config_path = some .garbage := h
  constructor
  · unfold AppModel.load
    rw [h']
  · rfl

/-- Witness for C3 (amended): the unparseable file at `"cfg"`. -/
theorem load_garbage_fallback_witness :
    AppModel.load false (AppModel.initState "cfg") garbageFS =
      .ok ((AppModel.initState "cfg").load_default false, garbageFS) ∧
    ((AppModel.initState "cfg").load_default false).groups =
      [{ title := .str "Main", items := [default_item false] }] :=
  load_garbage_fallback false "cfg" garbageFS rfl

/-- C6: when `load` parses the file successfully (as a JSON object `d`),
absent fields take the documented defaults: `theme` defaults to
`"system"` and is coerced to `"system"` whenever its value is anything
other than the strings `"system"`/`"classic"` (and kept when it is
`"classic"`); `layout_state` defaults to the empty string; `groups`
defaults to the empty list. -/
theorem load_parse_defaults (win : Bool) (p : ConfigPath) (fs fs' : FS)
    (d : List (String × Json)) (m1 : AppModel)
    (hread : fs p = some (.json (.obj d)))
    (hload : AppModel.load win (AppModel.initState p) fs = .ok (m1, fs')) :
    (d.lookup "theme" = none → m1.theme = "system") ∧
    (∀ v : Json, d.lookup "theme" = some v →
        v ≠ .str "system" → v ≠ .str "classic" → m1.theme = "system") ∧
    (d.lookup "theme" = some (.str "classic") → m1.theme = "classic") ∧
    (d.lookup "layout_state" = none → m1.layout_state = .str "") ∧
    (d.lookup "groups" = none → m1.groups = []) := by
  have hread' : fs (AppModel.initState p).config_path =
      some (.json (.obj d)) := hread
  unfold AppModel.load at hload
  split at hload
  · next heq =>
      rw [hread'] at heq
      exact Option.noConfusion heq
  · next heq =>
      rw [hread'] at heq
      exact FileContent.noConfusion (Option.some.inj heq)
  · split at hload
    · next data d' heq2 =>
        rw [hread'] at heq2
        have hdd : d = d' :=
          Json.obj.inj (FileContent.json.inj (Option.some.inj heq2))
        subst hdd
        split at hload
        · exact Except.noConfusion hload
        · next xs heq3 =>
            split at hload
            · exact Except.noConfusion hload
            · next gs hgs =>
                simp only [Except.ok.injEq, Prod.mk.injEq] at hload
                obtain ⟨hm, -⟩ := hload
                subst hm
                refine ⟨?_, ?_, ?_, ?_, ?_⟩
                · intro hl
                  have hdt : dictGet d "theme" (.str "system") = .str "system" := by
                    simp [dictGet, hl]
                  rw [hdt]
                  rfl
                · intro v hv hne1 hne2
                  have hdt : dictGet d "theme" (.str "system") = v := by
                    simp [dictGet, hv]
                  rw [hdt]
                  cases v with
                  | str s =>
                      have hs1 : s ≠ "system" := fun hh => hne1 (by rw [hh])
                      have hs2 : s ≠ "classic" := fun hh => hne2 (by rw [hh])
                      show (if s = "system" ∨ s = "classic" then s
                            else "system") = "system"
                      rw [if_neg]
                      rintro (hh | hh)
                      · exact hs1 hh
                      · exact hs2 hh
                  | null => rfl
                  | bool b => rfl
                  | num n => rfl
                  | arr ys => rfl
                  | obj kvs => rfl
                · intro hv
                  have hdt : dictGet d "theme" (.str "system") =
                      .str "classic" := by
                    simp [dictGet, hv]
                  rw [hdt]
                  rfl
                · intro hl
                  have hdl : dictGet d "layout_state" (.str "") = .str "" := by
                    simp [dictGet, hl]
                  rw [hdl]
                · intro hl
                  have hdg : dictGet d "groups" (.arr []) = .arr [] := by
                    simp [dictGet, hl]
                  rw [hdg] at heq3
                  have hxs : xs = [] :=
                    (Except.ok.inj ((rfl :
                      iterJson (.arr []) = Except.ok ([] : List Json)) ▸ heq3)).symm
                  subst hxs
                  have hgs0 : gs = [] :=
                    (Except.ok.inj ((rfl :
                      groupsFromDicts [] =
                        Except.ok ([] : List ProgramGroup)) ▸ hgs)).symm
                  exact hgs0
    · exact Except.noConfusion hload

/-- Witness for C6: the file at `"cfg"` holds the empty JSON object; the
loaded catalog takes all three defaults. -/
theorem load_parse_defaults_witness :
    (([] : List (String × Json)).lookup "theme" = none →
      (AppModel.initState "cfg").theme = "system") ∧
    (∀ v : Json, ([] : List (String × Json)).lookup "theme" = some v →
        v ≠ .str "system" → v ≠ .str "classic" →
        (AppModel.initState "cfg").theme = "system") ∧
    (([] : List (String × Json)).lookup "theme" = some (.str "classic") →
      (AppModel.initState "cfg").theme = "classic") ∧
    (([] : List (String × Json)).lookup "layout_state" = none →
      (AppModel.initState "cfg").layout_state = .str "") ∧
    (([] : List (String × Json)).lookup "groups" = none →
      (AppModel.initState "cfg").groups = []) :=
  load_parse_defaults false "cfg" emptyObjFS emptyObjFS []
    (AppModel.initState "cfg") rfl rfl

/-- C4: for every group and every accepted dialog whose title text or
command text is empty, adding the item fails with the InvalidItem outcome
(the "Invalid Item" warning; `get_item` returns `None`) and
`_new_program` leaves the group's item sequence unchanged — same length
and same contents as before the call. -/
theorem add_item_invalid (g : ProgramGroup) (ex : Option ProgramItem)
    (inp : DialogInputs) (hacc : inp.accepted = true)
    (h : inp.titleText = "" ∨ inp.commandText = "") :
    ProgramItemDialog.get_item ex inp = .invalidItem ∧
    GroupWindow.new_program g (ProgramItemDialog.get_item ex inp) = g := by
  have hi : ProgramItemDialog.get_item ex inp = .invalidItem := by
    rcases h with h | h <;>
      simp [ProgramItemDialog.get_item, hacc, h, show pyStrip "" = "" from rfl]
  refine ⟨hi, ?_⟩
  rw [hi]
  rfl

/-- Witness for C4: an accepted dialog with empty title text over the
default POSIX group. -/
theorem add_item_invalid_witness :
    ProgramItemDialog.get_item none
        { accepted := true, titleText := "", commandText := "xterm",
          workingText := "", iconText := "" } = .invalidItem ∧
    GroupWindow.new_program { title := .str "Main", items := [default_item false] }
        (ProgramItemDialog.get_item none
          { accepted := true, titleText := "", commandText := "xterm",
            workingText := "", iconText := "" }) =
      { title := .str "Main", items := [default_item false] } :=
  add_item_invalid { title := .str "Main", items := [default_item false] }
    none
    { accepted := true, titleText := "", commandText := "xterm",
      workingText := "", iconText := "" }
    rfl (Or.inl rfl)

/-- Entries whose object id differs from the target all survive the
identity-based list comprehension filter. -/
theorem filter_keeps_other_ids (t : Nat) (l : List (Nat × ProgramItem))
    (h : ∀ q ∈ l, q.1 ≠ t) :
    List.filter (fun q => decide (q.1 ≠ t)) l = l := by
  induction l with
  | nil => rfl
  | cons x xs ih =>
      rw [List.filter_cons_of_pos
            (p := fun q : Nat × ProgramItem => decide (q.1 ≠ t))
            (decide_eq_true (h x (by simp))),
          ih (fun q hq => h q (by simp [hq]))]

/-- A confirmed deletion is exactly the identity-based filter. -/
theorem delete_program_confirmed (items : List (Nat × ProgramItem))
    (t : Nat) :
    GroupWindow.delete_program items true t =
      items.filter (fun q => decide (q.1 ≠ t)) := rfl

/-- C5: for every group containing two items with identical field values —
two entries holding the same `ProgramItem` value `v` under distinct
object ids `a`/`b` (Python's `is` compares identity, not value), in any
surrounding context of entries with other ids — a confirmed
`_delete_program` on either handle removes exactly the targeted entry,
leaving the value-identical twin and every other entry intact and at
their original relative positions. -/
theorem delete_item_identity (pre mid post : List (Nat × ProgramItem))
    (v : ProgramItem) (a b : Nat) (hab : a ≠ b)
    (hothers : ∀ q ∈ pre ++ mid ++ post, q.1 ≠ a ∧ q.1 ≠ b) :
    GroupWindow.delete_program (pre ++ ((a, v) :: (mid ++ ((b, v) :: post))))
        true a = pre ++ (mid ++ ((b, v) :: post)) ∧
    GroupWindow.delete_program (pre ++ ((a, v) :: (mid ++ ((b, v) :: post))))
        true b = pre ++ ((a, v) :: (mid ++ post)) := by
  have hpre_a : ∀ q ∈ pre, q.1 ≠ a := fun q hq => (hothers q (by simp [hq])).1
  have hmid_a : ∀ q ∈ mid, q.1 ≠ a := fun q hq => (hothers q (by simp [hq])).1
  have hpost_a : ∀ q ∈ post, q.1 ≠ a := fun q hq => (hothers q (by simp [hq])).1
  have hpre_b : ∀ q ∈ pre, q.1 ≠ b := fun q hq => (hothers q (by simp [hq])).2
  have hmid_b : ∀ q ∈ mid, q.1 ≠ b := fun q hq => (hothers q (by simp [hq])).2
  have hpost_b : ∀ q ∈ post, q.1 ≠ b := fun q hq => (hothers q (by simp [hq])).2
  constructor
  · rw [delete_program_confirmed,
        List.filter_append,
        filter_keeps_other_ids a pre hpre_a,
        List.filter_cons_of_neg
          (p := fun q : Nat × ProgramItem => decide (q.1 ≠ a)) (by simp),
        List.filter_append,
        filter_keeps_other_ids a mid hmid_a,
        List.filter_cons_of_pos
          (p := fun q : Nat × ProgramItem => decide (q.1 ≠ a))
          (decide_eq_true (Ne.symm hab)),
        filter_keeps_other_ids a post hpost_a]
  · rw [delete_program_confirmed,
        List.filter_append,
        filter_keeps_other_ids b pre hpre_b,
        List.filter_cons_of_pos
          (p := fun q : Nat × ProgramItem => decide (q.1 ≠ b))
          (decide_eq_true hab),
        List.filter_append,
        filter_keeps_other_ids b mid hmid_b,
        List.filter_cons_of_neg
          (p := fun q : Nat × ProgramItem => decide (q.1 ≠ b)) (by simp),
        filter_keeps_other_ids b post hpost_b]

/-- Witness for C5: two copies of the xterm item under ids 0 and 1. -/
theorem delete_item_identity_witness :
    GroupWindow.delete_program
        [(0, default_item false), (1, default_item false)] true 0 =
      [(1, default_item false)] ∧
    GroupWindow.delete_program
        [(0, default_item false), (1, default_item false)] true 1 =
      [(0, default_item false)] :=
  delete_item_identity [] [] [] (default_item false) 0 1 (by decide)
    (by simp)

/-- A process-creation stub that always succeeds. -/
def okPopen : Json → Bool → Option Json → Except String Unit :=
  fun _ _ _ => .ok ()

/-- A process-creation stub that always fails with message `"boom"`. -/
def failPopen : Json → Bool → Option Json → Except String Unit :=
  fun _ _ _ => .error "boom"

/-- C7: launching an item whose command is the empty string returns the
skip outcome and makes no Popen call — no process is spawned. -/
theorem launch_empty_command_skips
    (popen : Json → Bool → Option Json → Except String Unit)
    (item : ProgramItem) (h : item.command = .str "") :
    Launcher.launch popen item = (.skipped, []) := by
  unfold Launcher.launch
  rw [h]
  rfl

/-- Witness for C7: an item with empty command under the always-succeeding
process stub. -/
theorem launch_empty_command_skips_witness :
    Launcher.launch okPopen
        { title := .str "T", command := .str "", working_dir := .str "",
          icon_path := .str "" } =
      (.skipped, []) :=
  launch_empty_command_skips okPopen
    { title := .str "T", command := .str "", working_dir := .str "",
      icon_path := .str "" } rfl

/-- C8: launching an item with a non-empty string command makes exactly one
Popen call passing the raw command string with `shell=True` (through the
host shell), and with `cwd` equal to the item's working directory when
that string is non-empty and `None` — inherit the launcher's own current
working directory — when it is empty. -/
theorem launch_spawns_with_cwd
    (popen : Json → Bool → Option Json → Except String Unit)
    (item : ProgramItem) (s w : String)
    (hc : item.command = .str s) (hs : s ≠ "")
    (hw : item.working_dir = .str w) :
    (Launcher.launch popen item).2 =
      [{ args := .str s, shell := true,
         cwd := if w = "" then none else some (.str w) }] := by
  unfold Launcher.launch
  rw [hc, hw]
  rw [if_neg (by simp [truthy, hs])]
  have hcwd : (if truthy (Json.str w) then some (Json.str w) else none) =
      (if w = "" then none else some (Json.str w)) := by
    by_cases hw0 : w = "" <;> simp [truthy, hw0]
  rw [hcwd]
  split <;> rfl

/-- Witness for C8: the xterm default item (empty working directory) under
the always-succeeding process stub. -/
theorem launch_spawns_with_cwd_witness :
    (Launcher.launch okPopen (default_item false)).2 =
      [{ args := .str "xterm", shell := true,
         cwd := if "" = "" then none else some (.str "") }] :=
  launch_spawns_with_cwd okPopen (default_item false) "xterm" ""
    rfl (by decide) rfl

/-- C9: when process creation fails, `launch` returns normally (the
`try/except` catches the exception — the host application is never
aborted) with the failure outcome carrying the item's title, its command
and the original error message. -/
theorem launch_failure_reports
    (popen : Json → Bool → Option Json → Except String Unit)
    (item : ProgramItem) (s e : String)
    (hc : item.command = .str s) (hs : s ≠ "")
    (hfail : popen item.command true
        (if truthy item.working_dir then some item.working_dir else none) =
      .error e) :
    (Launcher.launch popen item).1 = .failed item.title item.command e := by
  unfold Launcher.launch
  rw [hc] at hfail ⊢
  rw [if_neg (by simp [truthy, hs])]
  rw [hfail]

/-- Witness for C9: the xterm default item under the always-failing
process stub; the outcome carries the title, command and `"boom"`. -/
theorem launch_failure_reports_witness :
    (Launcher.launch failPopen (default_item false)).1 =
      .failed (default_item false).title (default_item false).command
        "boom" :=
  launch_failure_reports failPopen (default_item false) "xterm" "boom"
    rfl (by decide) rfl

/-- C10: only the exactly-empty command string is skipped — an item whose
command is non-empty but all whitespace is not skipped, and the raw
string is still handed to the shell in exactly one Popen call. -/
theorem launch_whitespace_not_skipped
    (popen : Json → Bool → Option Json → Except String Unit)
    (item : ProgramItem) (s : String)
    (hc : item.command = .str s) (hne : s ≠ "")
    (hws : ∀ c ∈ s.data, c.isWhitespace = true) :
    (Launcher.launch popen item).1 ≠ .skipped ∧
    (Launcher.launch popen item).2 =
      [{ args := .str s, shell := true,
         cwd := if truthy item.working_dir then some item.working_dir
                else none }] := by
  unfold Launcher.launch
  rw [hc]
  rw [if_neg (by simp [truthy, hne])]
  constructor
  · split <;> exact fun hcontra => LaunchResult.noConfusion hcontra
  · split <;> rfl

/-- Witness for C10: a single-space command under the always-succeeding
process stub. -/
theorem launch_whitespace_not_skipped_witness :
    (Launcher.launch okPopen
        { title := .str "W", command := .str " ", working_dir := .str "",
          icon_path := .str "" }).1 ≠ .skipped ∧
    (Launcher.launch okPopen
        { title := .str "W", command := .str " ", working_dir := .str "",
          icon_path := .str "" }).2 =
      [{ args := .str " ", shell := true,
         cwd := if truthy (Json.str "") then some (Json.str "")
                else none }] :=
  launch_whitespace_not_skipped okPopen
    { title := .str "W", command := .str " ", working_dir := .str "",
      icon_path := .str "" }
    " " rfl (by decide) (by decide)

end Progman
